import Mathlib

/-!
# Shallow embedding of `fleet_dashboard.py`

This file models the aggregation-and-export pipeline of the fleet summary
dashboard (`src/fleet_dashboard.py`) and proves the specification claims
about it.

Modelling conventions:
* A calendar date is encoded as a natural number in `yyyymmdd` form
  (e.g. `20240101` for 2024-01-01); the order on these numbers agrees with
  the calendar order used by pandas when sorting group keys.
* `pd.to_datetime(..., errors="coerce")` produces either a valid date or
  the null sentinel `NaT`; we model its result as `Option ℕ` with `none`
  for `NaT` (line 82 of the source).  Likewise
  `pd.to_numeric(..., errors="coerce")` yields `Option ℚ` with `none` for
  `NaN` (line 84); amounts are modelled as exact rationals.
* Python/pandas compares strings lexicographically by code point; we model
  that order with `charListLe`/`strLe` below (Lean's built-in `String`
  order does not reduce inside the kernel, so we define the same order on
  the character list directly).
* A pandas `groupby` sorts the group keys ascending and drops rows whose
  key is null (`dropna=True`, the default); its per-group aggregation sees
  rows in their original order.  We model the sorted distinct key list by
  `List.insertionSort` applied to a deduplicated key list.
-/

namespace FleetDashboard

/-- Lexicographic order on character lists by code point: the order Python
uses when comparing strings.  `charListLe as bs` is `true` iff `as ≤ bs`. -/
def charListLe : List Char → List Char → Bool
  | [], _ => true
  | _ :: _, [] => false
  | a :: as, b :: bs => if a < b then true else if b < a then false else charListLe as bs

/-- The Python string order, as a proposition on Lean strings. -/
def strLe (a b : String) : Prop := charListLe a.data b.data = true

instance : DecidableRel strLe := fun a b => by unfold strLe; infer_instance

/-- Order on daily group keys `(date, fleet)`: date ascending, then fleet
name ascending — the sort pandas applies to the keys of
`df.groupby(["OnlyDate", "Fleet"])` (line 132). -/
def keyLe (a b : ℕ × String) : Prop := a.1 < b.1 ∨ (a.1 = b.1 ∧ strLe a.2 b.2)

instance : DecidableRel keyLe := fun a b => by unfold keyLe strLe; infer_instance

/-- A normalized trip record, one row of the combined table `df`
(lines 82–85, 113): `OnlyDate` (`none` = `NaT`), `Fleet`, `Amount`. -/
structure Row where
  onlyDate : Option ℕ
  fleet : String
  amount : ℚ
deriving DecidableEq

/-- One row of the raw table read from a file, after pandas parsing of the
individual fields: `dateField` models the result of
`pd.to_datetime(df["Date"], errors="coerce")` on that row (`none` = `NaT`),
`amountField` the result of `pd.to_numeric(df["Amount"], errors="coerce")`
(`none` = `NaN`), and `fleetField` the fleet cell after `astype(str)`. -/
structure RawRow where
  dateField : Option ℕ
  amountField : Option ℚ
  fleetField : String
deriving DecidableEq

/-- Lines 82–85: the normalized row.  `OnlyDate` is `Date.dt.date`
(still `NaT` when the date was unparsable), `Amount` is the parsed amount
with `NaN` filled by `0`, `Fleet` the string fleet value. -/
def normalizeRow (r : RawRow) : Row :=
  ⟨r.dateField, r.fleetField, r.amountField.getD 0⟩

/-- Line 132–135: the sorted distinct `(OnlyDate, Fleet)` keys of
`df.groupby(["OnlyDate", "Fleet"])`.  Rows whose `OnlyDate` is `NaT`
(`none`) carry a null key component and are dropped by pandas. -/
def dailyKeys (rows : List Row) : List (ℕ × String) :=
  List.insertionSort keyLe
    ((rows.filterMap fun r => r.onlyDate.map fun d => (d, r.fleet)).dedup)

/-- Line 134: `FleetCount=("Fleet", "count")` for key `k` — the number of
rows in the `(date, fleet)` group (the `Fleet` column is a string column,
so it has no nulls and `count` is the group size). -/
def keyCount (rows : List Row) (k : ℕ × String) : ℕ :=
  rows.countP fun r => decide (r.onlyDate = some k.1 ∧ r.fleet = k.2)

/-- Line 133: `TotalAmount=("Amount", "sum")` for key `k`. -/
def keySum (rows : List Row) (k : ℕ × String) : ℚ :=
  ((rows.filter fun r => decide (r.onlyDate = some k.1 ∧ r.fleet = k.2)).map Row.amount).sum

/-- One row of the `grouped` table (lines 132–135). -/
structure GroupedRow where
  onlyDate : ℕ
  fleet : String
  totalAmount : ℚ
  fleetCount : ℕ
deriving DecidableEq

/-- Lines 132–135: the `grouped` table, one row per distinct
`(OnlyDate, Fleet)` key, keys sorted ascending. -/
def grouped (rows : List Row) : List GroupedRow :=
  (dailyKeys rows).map fun k => ⟨k.1, k.2, keySum rows k, keyCount rows k⟩

/-- Line 138: the sorted distinct dates over which
`grouped.groupby("OnlyDate")` iterates. -/
def subDates (rows : List Row) : List ℕ :=
  List.insertionSort (· ≤ ·) (((grouped rows).map GroupedRow.onlyDate).dedup)

/-- One row of the Daily Subtotals table `subtotal_df` (lines 137–158):
columns `Date`, `Fleet`, `Fleet Count`, `Total Amount (₦)`. -/
structure SubRow where
  date : ℕ
  fleet : String
  fleetCount : ℕ
  totalAmount : ℚ
deriving DecidableEq

/-- The rows of `grouped` belonging to date `d` — the group body in the
loop `for date, group in grouped.groupby("OnlyDate")` (line 138); the
second `groupby` preserves the within-group row order of `grouped`. -/
def dateFleetRows (rows : List Row) (d : ℕ) : List GroupedRow :=
  (grouped rows).filter fun g => decide (g.onlyDate = d)

/-- Lines 150–156: the synthetic `Subtotal` row for date `d`, summing
`FleetCount` and `TotalAmount` over that date's group (lines 139–140). -/
def subRowOf (rows : List Row) (d : ℕ) : SubRow :=
  ⟨d, "Subtotal",
    ((dateFleetRows rows d).map GroupedRow.fleetCount).sum,
    ((dateFleetRows rows d).map GroupedRow.totalAmount).sum⟩

/-- Lines 142–156: the block of output rows emitted for date `d` — the
fleet rows of the date in group order, then the `Subtotal` row. -/
def dateBlock (rows : List Row) (d : ℕ) : List SubRow :=
  ((dateFleetRows rows d).map fun g => ⟨g.onlyDate, g.fleet, g.fleetCount, g.totalAmount⟩)
    ++ [subRowOf rows d]

/-- Lines 137–158: the Daily Subtotals table `subtotal_df`. -/
def subtotal_df (rows : List Row) : List SubRow :=
  ((subDates rows).map (dateBlock rows)).flatten

/-- One row of the `fleet_summary` table (lines 164–174): columns
`Fleet`, `TotalFleetCount`, `TotalAmount`. -/
structure FleetRow where
  fleet : String
  totalFleetCount : ℕ
  totalAmount : ℚ
deriving DecidableEq

/-- Lines 164–167: the sorted distinct fleet names of
`df.groupby("Fleet")` (the `Fleet` column is a string column, so no key
is null and no row is dropped). -/
def fleetKeys (rows : List Row) : List String :=
  List.insertionSort strLe ((rows.map Row.fleet).dedup)

/-- Line 165: `TotalFleetCount=("Fleet", "count")` for fleet `f`. -/
def fleetCountOf (rows : List Row) (f : String) : ℕ :=
  rows.countP fun r => decide (r.fleet = f)

/-- Line 166: `TotalAmount=("Amount", "sum")` for fleet `f`. -/
def fleetAmountOf (rows : List Row) (f : String) : ℚ :=
  ((rows.filter fun r => decide (r.fleet = f)).map Row.amount).sum

/-- Lines 164–167: the per-fleet part of `fleet_summary`. -/
def fleetGrouped (rows : List Row) : List FleetRow :=
  (fleetKeys rows).map fun f => ⟨f, fleetCountOf rows f, fleetAmountOf rows f⟩

/-- Lines 170–174: the `Grand Total` row, appended unconditionally with
the column sums of the per-fleet table. -/
def grandTotalRow (rows : List Row) : FleetRow :=
  ⟨"Grand Total",
    ((fleetGrouped rows).map FleetRow.totalFleetCount).sum,
    ((fleetGrouped rows).map FleetRow.totalAmount).sum⟩

/-- Lines 164–174: the Fleet Summary table after
`fleet_summary.loc[len(fleet_summary)] = [...]`. -/
def fleet_summary (rows : List Row) : List FleetRow :=
  fleetGrouped rows ++ [grandTotalRow rows]

/-- Line 122: the date-range filter
`df[(df["OnlyDate"] >= a) & (df["OnlyDate"] <= b)]`, applied only when the
widget returned a two-element range (line 121).  In pandas, comparing
`NaT` with a date yields `False`, so rows with a null date are removed by
the filter. -/
def applyDateFilter (range : Option (ℕ × ℕ)) (rows : List Row) : List Row :=
  match range with
  | none => rows
  | some (a, b) =>
      rows.filter fun r =>
        match r.onlyDate with
        | some d => decide (a ≤ d) && decide (d ≤ b)
        | none => false

/-- Lines 124–126: the fleet multiselect filter, applied only when the
selection is nonempty. -/
def applyFleetFilter (sel : List String) (rows : List Row) : List Row :=
  if sel = [] then rows else rows.filter fun r => sel.contains r.fleet

/-- One uploaded file as `process_uploaded_files` sees it: its declared
name, whether its first sheet can be read (the `try` on lines 63–69 —
only the Excel branch guards reading), the column names of the parsed
table, and its rows with the three relevant fields already
pandas-parsed. -/
structure UploadedFile where
  name : String
  sheetReadable : Bool
  columns : List String
  rows : List RawRow

/-- Line 46. -/
def REQUIRED_COLS : List String := ["Date", "Fleet", "Amount"]

/-- Outcome of `process_uploaded_files` for a single file: either its
normalized table, or the reason the file was skipped (`continue`). -/
inductive FileResult where
  | ok (rows : List Row)
  | missingColumns (missing : List String)
  | unreadableSheet
  | unsupported
deriving DecidableEq

/-- Line 76: `[c for c in REQUIRED_COLS if c not in df.columns]`. -/
def missingOf (f : UploadedFile) : List String :=
  REQUIRED_COLS.filter fun c => decide (c ∉ f.columns)

/-- Lines 76–87: column validation followed by normalization. -/
def validateAndNormalize (f : UploadedFile) : FileResult :=
  if missingOf f = [] then .ok (f.rows.map normalizeRow)
  else .missingColumns (missingOf f)

/-- Line 53: `file.name.lower()`.  Python `str.lower` maps each
character to lower case. -/
def lowerName (f : UploadedFile) : List Char :=
  f.name.data.map Char.toLower

/-- Lines 52–89: the per-file dispatch of `process_uploaded_files` —
extension dispatch (`.csv` read directly, `.xlsx` guarded by a
`try`/`continue`, anything else skipped with a warning), then column
validation, then normalization. -/
def processFile (f : UploadedFile) : FileResult :=
  if ".csv".data.isSuffixOf (lowerName f) then validateAndNormalize f
  else if ".xlsx".data.isSuffixOf (lowerName f) then
    if f.sheetReadable then validateAndNormalize f else .unreadableSheet
  else .unsupported

/-- Lines 45–92: the list `all_dfs` of successfully normalized tables, in
upload order. -/
def process_uploaded_files (files : List UploadedFile) : List (List Row) :=
  files.filterMap fun f =>
    match processFile f with
    | .ok rows => some rows
    | _ => none

/-- Line 113: `df = pd.concat(dfs, ignore_index=True)`. -/
def combinedRows (files : List UploadedFile) : List Row :=
  (process_uploaded_files files).flatten

/-- A spreadsheet cell as `openpyxl` sees it after `df.to_excel`: a
string, a number, or a date. -/
inductive Cell where
  | str (s : String)
  | num (q : ℚ)
  | date (d : ℕ)
deriving DecidableEq

/-- A data row of the exported Daily Subtotals sheet, in the column order
of `subtotal_df` (lines 143–148): Date, Fleet, Fleet Count, Total
Amount. -/
def subRowCells (r : SubRow) : List Cell :=
  [.date r.date, .str r.fleet, .num r.fleetCount, .num r.totalAmount]

/-- A data row of the exported Fleet Summary sheet, in the column order
of `fleet_summary` (lines 164–174): Fleet, TotalFleetCount,
TotalAmount. -/
def fleetRowCells (r : FleetRow) : List Cell :=
  [.str r.fleet, .num r.totalFleetCount, .num r.totalAmount]

/-- Lines 24–28 of `style_and_export_to_excel`: a data row is rendered
bold exactly when the cell at index 1 (the second column) holds the
string `"Subtotal"` or `"Grand Total"`. -/
def rowIsBold (cells : List Cell) : Bool :=
  match (cells[1]? : Option Cell) with
  | some (.str s) => s == "Subtotal" || s == "Grand Total"
  | _ => false

/-! ## Order-theoretic facts about the modelled string and key orders -/

theorem charListLe_total : ∀ as bs : List Char, charListLe as bs = true ∨ charListLe bs as = true := by
  intro as
  induction as with
  | nil => intro bs; left; rfl
  | cons a as ih =>
    intro bs
    cases bs with
    | nil => right; rfl
    | cons b bs =>
      rcases lt_trichotomy a b with h | h | h
      · left; simp [charListLe, h]
      · subst h
        rcases ih bs with h2 | h2
        · left; simp [charListLe, lt_irrefl, h2]
        · right; simp [charListLe, lt_irrefl, h2]
      · right; simp [charListLe, h]

theorem charListLe_trans : ∀ as bs cs : List Char,
    charListLe as bs = true → charListLe bs cs = true → charListLe as cs = true := by
  intro as
  induction as with
  | nil => intro bs cs h1 h2; rfl
  | cons a as ih =>
    intro bs cs h1 h2
    cases bs with
    | nil => simp [charListLe] at h1
    | cons b bs =>
      cases cs with
      | nil => simp [charListLe] at h2
      | cons c cs =>
        by_cases hab : a < b
        · by_cases hbc : b < c
          · simp [charListLe, lt_trans hab hbc]
          · by_cases hcb : c < b
            · simp [charListLe, hbc, hcb] at h2
            · have hbc' : b = c := le_antisymm (not_lt.mp hcb) (not_lt.mp hbc)
              subst hbc'
              simp [charListLe, hab]
        · by_cases hba : b < a
          · simp [charListLe, hab, hba] at h1
          · have hab' : a = b := le_antisymm (not_lt.mp hba) (not_lt.mp hab)
            subst hab'
            simp only [charListLe, lt_irrefl, if_neg (lt_irrefl a)] at h1
            by_cases hac : a < c
            · simp [charListLe, hac]
            · by_cases hca : c < a
              · simp [charListLe, hac, hca] at h2
              · have hac' : a = c := le_antisymm (not_lt.mp hca) (not_lt.mp hac)
                subst hac'
                simp only [charListLe, lt_irrefl, if_neg (lt_irrefl a)] at h2 ⊢
                exact ih bs cs h1 h2

theorem charListLe_antisymm : ∀ as bs : List Char,
    charListLe as bs = true → charListLe bs as = true → as = bs := by
  intro as
  induction as with
  | nil =>
    intro bs h1 h2
    cases bs with
    | nil => rfl
    | cons b bs => simp [charListLe] at h2
  | cons a as ih =>
    intro bs h1 h2
    cases bs with
    | nil => simp [charListLe] at h1
    | cons b bs =>
      by_cases hab : a < b
      · simp [charListLe, hab, lt_asymm hab] at h2
      · by_cases hba : b < a
        · simp [charListLe, hab, hba] at h1
        · have hab' : a = b := le_antisymm (not_lt.mp hba) (not_lt.mp hab)
          subst hab'
          simp only [charListLe, lt_irrefl, if_neg (lt_irrefl a)] at h1 h2
          rw [ih bs h1 h2]

instance : IsTotal String strLe := ⟨fun a b => charListLe_total a.data b.data⟩

instance : IsTrans String strLe := ⟨fun a b c => charListLe_trans a.data b.data c.data⟩

instance : IsAntisymm String strLe where
  antisymm a b h1 h2 := by
    cases a with
    | mk da =>
      cases b with
      | mk db => exact congrArg String.mk (charListLe_antisymm da db h1 h2)

instance : IsTotal (ℕ × String) keyLe where
  total a b := by
    rcases lt_trichotomy a.1 b.1 with h | h | h
    · exact Or.inl (Or.inl h)
    · rcases total_of strLe a.2 b.2 with h2 | h2
      · exact Or.inl (Or.inr ⟨h, h2⟩)
      · exact Or.inr (Or.inr ⟨h.symm, h2⟩)
    · exact Or.inr (Or.inl h)

instance : IsTrans (ℕ × String) keyLe where
  trans a b c h1 h2 := by
    rcases h1 with h1 | ⟨e1, s1⟩
    · rcases h2 with h2 | ⟨e2, s2⟩
      · exact Or.inl (lt_trans h1 h2)
      · exact Or.inl (by rw [← e2]; exact h1)
    · rcases h2 with h2 | ⟨e2, s2⟩
      · exact Or.inl (by rw [e1]; exact h2)
      · exact Or.inr ⟨e1.trans e2, IsTrans.trans _ _ _ s1 s2⟩

instance : IsAntisymm (ℕ × String) keyLe where
  antisymm a b h1 h2 := by
    rcases h1 with h1 | ⟨e1, s1⟩
    · rcases h2 with h2 | ⟨e2, s2⟩
      · exact absurd h2 (lt_asymm h1)
      · exfalso; rw [e2] at h1; exact lt_irrefl _ h1
    · rcases h2 with h2 | ⟨e2, s2⟩
      · exfalso; rw [e1] at h2; exact lt_irrefl _ h2
      · exact Prod.ext e1 (antisymm s1 s2)

/-! ## Generic partition lemmas: summing a quantity group-by-group over a
complete, duplicate-free list of group keys recovers the total. -/

theorem sum_map_add_distrib {κ M : Type} [AddCommMonoid M] (f g : κ → M) (ks : List κ) :
    (ks.map fun k => f k + g k).sum = (ks.map f).sum + (ks.map g).sum := by
  induction ks with
  | nil => simp
  | cons k ks ih =>
    simp only [List.map_cons, List.sum_cons, ih]
    exact add_add_add_comm _ _ _ _

theorem sum_map_ite_zero {κ M : Type} [DecidableEq κ] [AddCommMonoid M] (c : κ) (v : M) :
    ∀ ks : List κ, c ∉ ks → (ks.map fun k => if c = k then v else 0).sum = 0 := by
  intro ks
  induction ks with
  | nil => intro _; rfl
  | cons k ks ih =>
    intro h
    have hck : c ≠ k := fun e => h (by rw [e]; exact List.mem_cons_self k ks)
    simp [hck, ih fun hm => h (List.mem_cons_of_mem _ hm)]

theorem sum_map_ite_single {κ M : Type} [DecidableEq κ] [AddCommMonoid M] (c : κ) (v : M) :
    ∀ ks : List κ, ks.Nodup → c ∈ ks → (ks.map fun k => if c = k then v else 0).sum = v := by
  intro ks
  induction ks with
  | nil => intro _ h; cases h
  | cons k ks ih =>
    intro hnd hm
    rcases List.mem_cons.mp hm with e | hm2
    · subst e
      simp [sum_map_ite_zero c v ks (List.nodup_cons.mp hnd).1]
    · have hck : c ≠ k := fun e => (List.nodup_cons.mp hnd).1 (e ▸ hm2)
      simp [hck, ih (List.nodup_cons.mp hnd).2 hm2]

theorem partition_sum {α κ M : Type} [DecidableEq κ] [AddCommMonoid M] (key : α → κ) (w : α → M) :
    ∀ (xs : List α) (ks : List κ), ks.Nodup → (∀ x ∈ xs, key x ∈ ks) →
      (ks.map fun k => ((xs.filter fun x => decide (key x = k)).map w).sum).sum
        = (xs.map w).sum := by
  intro xs
  induction xs with
  | nil => intro ks _ _; simp
  | cons x xs ih =>
    intro ks hnd hall
    have hx : key x ∈ ks := hall x (List.mem_cons_self x xs)
    have hrest : ∀ y ∈ xs, key y ∈ ks := fun y hy => hall y (List.mem_cons_of_mem _ hy)
    have step : ∀ k ∈ ks,
        ((List.filter (fun y => decide (key y = k)) (x :: xs)).map w).sum
          = (if key x = k then w x else 0)
            + ((List.filter (fun y => decide (key y = k)) xs).map w).sum := by
      intro k _
      by_cases h : key x = k
      · simp [List.filter_cons, h]
      · simp [List.filter_cons, h]
    rw [List.map_congr_left step, sum_map_add_distrib,
      sum_map_ite_single (key x) (w x) ks hnd hx, ih ks hnd hrest]
    simp

theorem sum_map_one {α : Type} (xs : List α) : (xs.map fun _ => (1 : ℕ)).sum = xs.length := by
  induction xs <;> simp [*, Nat.add_comm]

theorem partition_count {α κ : Type} [DecidableEq κ] (key : α → κ) (xs : List α) (ks : List κ)
    (hnd : ks.Nodup) (hall : ∀ x ∈ xs, key x ∈ ks) :
    (ks.map fun k => xs.countP fun x => decide (key x = k)).sum = xs.length := by
  have e : ∀ k ∈ ks, (xs.countP fun x => decide (key x = k))
      = ((xs.filter fun x => decide (key x = k)).map fun _ => (1 : ℕ)).sum := by
    intro k _
    rw [sum_map_one, List.countP_eq_length_filter]
  rw [List.map_congr_left e, partition_sum key (fun _ => (1 : ℕ)) xs ks hnd hall, sum_map_one]

/-! ## The group-key lists: membership, freedom from duplicates, sortedness -/

theorem mem_dailyKeys {rows : List Row} {k : ℕ × String} :
    k ∈ dailyKeys rows ↔ ∃ r ∈ rows, r.onlyDate = some k.1 ∧ r.fleet = k.2 := by
  unfold dailyKeys
  rw [(List.perm_insertionSort keyLe _).mem_iff, List.mem_dedup, List.mem_filterMap]
  constructor
  · rintro ⟨r, hr, he⟩
    cases hd : r.onlyDate with
    | none => rw [hd] at he; cases he
    | some d =>
      rw [hd] at he
      simp only [Option.map_some'] at he
      cases he
      exact ⟨r, hr, hd, rfl⟩
  · rintro ⟨r, hr, h1, h2⟩
    refine ⟨r, hr, ?_⟩
    rw [h1]
    simp only [Option.map_some']
    rw [h2]

theorem nodup_dailyKeys (rows : List Row) : (dailyKeys rows).Nodup :=
  ((List.perm_insertionSort keyLe _).nodup_iff).mpr (List.nodup_dedup _)

theorem sorted_dailyKeys (rows : List Row) : List.Sorted keyLe (dailyKeys rows) :=
  List.sorted_insertionSort keyLe _

theorem mem_subDates {rows : List Row} {d : ℕ} :
    d ∈ subDates rows ↔ ∃ r ∈ rows, r.onlyDate = some d := by
  unfold subDates grouped
  rw [(List.perm_insertionSort _ _).mem_iff, List.mem_dedup, List.map_map]
  constructor
  · intro h
    rcases List.mem_map.mp h with ⟨k, hk, he⟩
    rcases mem_dailyKeys.mp hk with ⟨r, hr, h1, _⟩
    refine ⟨r, hr, ?_⟩
    rw [← he]
    exact h1
  · rintro ⟨r, hr, h1⟩
    exact List.mem_map.mpr ⟨(d, r.fleet), mem_dailyKeys.mpr ⟨r, hr, h1, rfl⟩, rfl⟩

theorem nodup_subDates (rows : List Row) : (subDates rows).Nodup :=
  ((List.perm_insertionSort _ _).nodup_iff).mpr (List.nodup_dedup _)

theorem sorted_subDates (rows : List Row) : List.Sorted (· < ·) (subDates rows) :=
  (List.sorted_insertionSort _ _).lt_of_le (nodup_subDates rows)

theorem mem_fleetKeys {rows : List Row} {f : String} :
    f ∈ fleetKeys rows ↔ ∃ r ∈ rows, r.fleet = f := by
  unfold fleetKeys
  rw [(List.perm_insertionSort strLe _).mem_iff, List.mem_dedup, List.mem_map]

theorem nodup_fleetKeys (rows : List Row) : (fleetKeys rows).Nodup :=
  ((List.perm_insertionSort strLe _).nodup_iff).mpr (List.nodup_dedup _)

theorem sorted_fleetKeys (rows : List Row) : List.Sorted strLe (fleetKeys rows) :=
  List.sorted_insertionSort strLe _

/-! ## Partition corollaries: the synthetic rows really are totals of the
corresponding raw rows -/

theorem grand_count_eq_length (rows : List Row) :
    ((fleetGrouped rows).map FleetRow.totalFleetCount).sum = rows.length := by
  unfold fleetGrouped
  rw [List.map_map]
  exact partition_count Row.fleet rows (fleetKeys rows) (nodup_fleetKeys rows)
    fun r hr => mem_fleetKeys.mpr ⟨r, hr, rfl⟩

theorem grand_amount_eq_total (rows : List Row) :
    ((fleetGrouped rows).map FleetRow.totalAmount).sum = (rows.map Row.amount).sum := by
  unfold fleetGrouped
  rw [List.map_map]
  exact partition_sum Row.fleet Row.amount rows (fleetKeys rows) (nodup_fleetKeys rows)
    fun r hr => mem_fleetKeys.mpr ⟨r, hr, rfl⟩

/-- The `(date, fleet)` keys whose date is `d`. -/
theorem dateFleetRows_eq (rows : List Row) (d : ℕ) :
    dateFleetRows rows d
      = ((dailyKeys rows).filter fun k => decide (k.1 = d)).map
          fun k => ⟨k.1, k.2, keySum rows k, keyCount rows k⟩ := by
  unfold dateFleetRows grouped
  rw [List.filter_map]
  rfl

theorem nodup_dateFleets (rows : List Row) (d : ℕ) :
    (((dailyKeys rows).filter fun k => decide (k.1 = d)).map Prod.snd).Nodup := by
  refine List.Nodup.map_on ?_ ((nodup_dailyKeys rows).filter _)
  intro x hx y hy he
  have hx1 : x.1 = d := of_decide_eq_true (List.mem_filter.mp hx).2
  have hy1 : y.1 = d := of_decide_eq_true (List.mem_filter.mp hy).2
  exact Prod.ext (hx1.trans hy1.symm) he

theorem mem_dateFleets (rows : List Row) (d : ℕ) :
    ∀ r ∈ rows.filter fun r => decide (r.onlyDate = some d),
      r.fleet ∈ ((dailyKeys rows).filter fun k => decide (k.1 = d)).map Prod.snd := by
  intro r hr
  have hmem := (List.mem_filter.mp hr).1
  have hdate : r.onlyDate = some d := of_decide_eq_true (List.mem_filter.mp hr).2
  refine List.mem_map.mpr ⟨(d, r.fleet), List.mem_filter.mpr ⟨?_, by simp⟩, rfl⟩
  exact mem_dailyKeys.mpr ⟨r, hmem, hdate, rfl⟩

theorem keyCount_restrict (rows : List Row) (d : ℕ) (f : String) :
    keyCount rows (d, f)
      = (rows.filter fun r => decide (r.onlyDate = some d)).countP
          fun r => decide (r.fleet = f) := by
  unfold keyCount
  rw [List.countP_filter]
  apply congrArg fun p => List.countP p rows
  funext r
  simp [Bool.decide_and, Bool.and_comm]

theorem keySum_restrict (rows : List Row) (d : ℕ) (f : String) :
    keySum rows (d, f)
      = (((rows.filter fun r => decide (r.onlyDate = some d)).filter
            fun r => decide (r.fleet = f)).map Row.amount).sum := by
  unfold keySum
  rw [List.filter_filter]
  apply congrArg fun l => (List.map Row.amount l).sum
  apply congrArg fun p => List.filter p rows
  funext r
  simp [Bool.decide_and, Bool.and_comm]

theorem subtotal_count_eq (rows : List Row) (d : ℕ) :
    ((dateFleetRows rows d).map GroupedRow.fleetCount).sum
      = rows.countP fun r => decide (r.onlyDate = some d) := by
  rw [dateFleetRows_eq, List.map_map]
  have e1 : ∀ k ∈ (dailyKeys rows).filter fun k => decide (k.1 = d),
      (GroupedRow.fleetCount ∘ fun k : ℕ × String =>
        GroupedRow.mk k.1 k.2 (keySum rows k) (keyCount rows k)) k
        = ((fun f => (rows.filter fun r => decide (r.onlyDate = some d)).countP
            fun r => decide (r.fleet = f)) ∘ Prod.snd) k := by
    intro k hk
    have hk1 : k.1 = d := of_decide_eq_true (List.mem_filter.mp hk).2
    show keyCount rows k = _
    rw [show k = (d, k.2) from Prod.ext hk1 rfl, keyCount_restrict]
    rfl
  rw [List.map_congr_left e1, ← List.map_map]
  rw [partition_count Row.fleet _ _ (nodup_dateFleets rows d) (mem_dateFleets rows d)]
  rw [List.countP_eq_length_filter]

theorem subtotal_amount_eq (rows : List Row) (d : ℕ) :
    ((dateFleetRows rows d).map GroupedRow.totalAmount).sum
      = ((rows.filter fun r => decide (r.onlyDate = some d)).map Row.amount).sum := by
  rw [dateFleetRows_eq, List.map_map]
  have e1 : ∀ k ∈ (dailyKeys rows).filter fun k => decide (k.1 = d),
      (GroupedRow.totalAmount ∘ fun k : ℕ × String =>
        GroupedRow.mk k.1 k.2 (keySum rows k) (keyCount rows k)) k
        = ((fun f => (((rows.filter fun r => decide (r.onlyDate = some d)).filter
            fun r => decide (r.fleet = f)).map Row.amount).sum) ∘ Prod.snd) k := by
    intro k hk
    have hk1 : k.1 = d := of_decide_eq_true (List.mem_filter.mp hk).2
    show keySum rows k = _
    rw [show k = (d, k.2) from Prod.ext hk1 rfl, keySum_restrict]
    rfl
  rw [List.map_congr_left e1, ← List.map_map]
  exact partition_sum Row.fleet Row.amount _ _ (nodup_dateFleets rows d) (mem_dateFleets rows d)

/-! ## Block structure of the Daily Subtotals table -/

theorem dateBlock_dates (rows : List Row) (d : ℕ) :
    ∀ r ∈ dateBlock rows d, r.date = d := by
  intro r hr
  unfold dateBlock at hr
  rcases List.mem_append.mp hr with h | h
  · rcases List.mem_map.mp h with ⟨g, hg, he⟩
    have h1 : g.onlyDate = d := of_decide_eq_true (List.mem_filter.mp hg).2
    rw [← he]
    exact h1
  · rw [List.mem_singleton.mp h]
    rfl

theorem subtotal_df_decomposition (rows : List Row) (d : ℕ) (hd : d ∈ subDates rows) :
    ∃ pre post, subtotal_df rows = pre ++ dateBlock rows d ++ post ∧
      (∀ r ∈ pre, r.date ≠ d) ∧ (∀ r ∈ post, r.date ≠ d) := by
  obtain ⟨ds1, ds2, hsplit⟩ := List.append_of_mem hd
  have hnd : (ds1 ++ d :: ds2).Nodup := by rw [← hsplit]; exact nodup_subDates rows
  obtain ⟨hnd1, hnd2, hdisj⟩ := List.nodup_append.mp hnd
  have hd1 : d ∉ ds1 := fun h => hdisj h (List.mem_cons_self _ _)
  have hd2 : d ∉ ds2 := (List.nodup_cons.mp hnd2).1
  refine ⟨(ds1.map (dateBlock rows)).flatten, (ds2.map (dateBlock rows)).flatten, ?_, ?_, ?_⟩
  · unfold subtotal_df
    rw [hsplit]
    simp [List.flatten_append, List.append_assoc]
  · intro r hr
    rcases List.mem_flatten.mp hr with ⟨b, hb, hrb⟩
    rcases List.mem_map.mp hb with ⟨d', hd', he⟩
    rw [← he] at hrb
    rw [dateBlock_dates rows d' r hrb]
    exact fun e => hd1 (e ▸ hd')
  · intro r hr
    rcases List.mem_flatten.mp hr with ⟨b, hb, hrb⟩
    rcases List.mem_map.mp hb with ⟨d', hd', he⟩
    rw [← he] at hrb
    rw [dateBlock_dates rows d' r hrb]
    exact fun e => hd2 (e ▸ hd')

theorem pairwise_le_const {l : List ℕ} {d : ℕ} (h : ∀ a ∈ l, a = d) :
    l.Pairwise (· ≤ ·) := by
  induction l with
  | nil => exact .nil
  | cons a l ih =>
    refine .cons ?_ (ih fun b hb => h b (List.mem_cons_of_mem _ hb))
    intro b hb
    rw [h a (List.mem_cons_self _ _), h b (List.mem_cons_of_mem _ hb)]

theorem sorted_dates_flatten :
    ∀ ds : List ℕ, List.Sorted (· < ·) ds → ∀ f : ℕ → List SubRow,
      (∀ d ∈ ds, ∀ r ∈ f d, r.date = d) →
      List.Sorted (· ≤ ·) (((ds.map f).flatten).map SubRow.date) := by
  intro ds
  induction ds with
  | nil => intro _ f _; exact List.Pairwise.nil
  | cons d ds ih =>
    intro hs f hf
    rw [List.map_cons, List.flatten_cons, List.map_append]
    show List.Pairwise _ _
    rw [List.pairwise_append]
    refine ⟨?_, ?_, ?_⟩
    · apply pairwise_le_const
      intro a ha
      rcases List.mem_map.mp ha with ⟨r, hr, he⟩
      rw [← he]
      exact hf d (List.mem_cons_self _ _) r hr
    · exact ih ((List.pairwise_cons.mp hs).2)
        f fun d' hd' => hf d' (List.mem_cons_of_mem _ hd')
    · intro a ha b hb
      rcases List.mem_map.mp ha with ⟨r, hr, hea⟩
      rcases List.mem_map.mp hb with ⟨r2, hr2, heb⟩
      rcases List.mem_flatten.mp hr2 with ⟨bl, hbl, hrbl⟩
      rcases List.mem_map.mp hbl with ⟨d', hd', hebl⟩
      subst hebl
      rw [← hea, ← heb, hf d (List.mem_cons_self _ _) r hr,
        hf d' (List.mem_cons_of_mem _ hd') r2 hrbl]
      exact le_of_lt ((List.pairwise_cons.mp hs).1 d' hd')

theorem sorted_subtotal_dates (rows : List Row) :
    List.Sorted (· ≤ ·) ((subtotal_df rows).map SubRow.date) :=
  sorted_dates_flatten (subDates rows) (sorted_subDates rows) (dateBlock rows)
    fun d _ => dateBlock_dates rows d

theorem sorted_fleetGrouped (rows : List Row) :
    List.Sorted strLe ((fleetGrouped rows).map FleetRow.fleet) := by
  unfold fleetGrouped
  rw [List.map_map]
  have : (FleetRow.fleet ∘ fun f => FleetRow.mk f (fleetCountOf rows f) (fleetAmountOf rows f))
      = fun f => f := rfl
  rw [this, List.map_id']
  exact sorted_fleetKeys rows

/-! ## The tables are functions of the multiset of rows -/

theorem dailyKeys_perm_eq {l1 l2 : List Row} (h : l1.Perm l2) :
    dailyKeys l1 = dailyKeys l2 := by
  unfold dailyKeys
  refine List.eq_of_perm_of_sorted ?_
    (List.sorted_insertionSort _ _) (List.sorted_insertionSort _ _)
  refine (List.perm_insertionSort _ _).trans (.trans ?_ (List.perm_insertionSort _ _).symm)
  exact (h.filterMap _).dedup

theorem grouped_perm_eq {l1 l2 : List Row} (h : l1.Perm l2) : grouped l1 = grouped l2 := by
  unfold grouped
  rw [dailyKeys_perm_eq h]
  refine List.map_congr_left fun k _ => ?_
  have hc : keyCount l1 k = keyCount l2 k := h.countP_eq _
  have hs : keySum l1 k = keySum l2 k := ((h.filter _).map _).sum_eq
  rw [hc, hs]

theorem subtotal_df_congr {l1 l2 : List Row} (hg : grouped l1 = grouped l2) :
    subtotal_df l1 = subtotal_df l2 := by
  unfold subtotal_df subDates dateBlock subRowOf dateFleetRows
  rw [hg]

theorem fleetKeys_perm_eq {l1 l2 : List Row} (h : l1.Perm l2) :
    fleetKeys l1 = fleetKeys l2 := by
  unfold fleetKeys
  refine List.eq_of_perm_of_sorted ?_
    (List.sorted_insertionSort _ _) (List.sorted_insertionSort _ _)
  refine (List.perm_insertionSort _ _).trans (.trans ?_ (List.perm_insertionSort _ _).symm)
  exact (h.map _).dedup

theorem fleetGrouped_perm_eq {l1 l2 : List Row} (h : l1.Perm l2) :
    fleetGrouped l1 = fleetGrouped l2 := by
  unfold fleetGrouped
  rw [fleetKeys_perm_eq h]
  refine List.map_congr_left fun f _ => ?_
  have hc : fleetCountOf l1 f = fleetCountOf l2 f := h.countP_eq _
  have hs : fleetAmountOf l1 f = fleetAmountOf l2 f := ((h.filter _).map _).sum_eq
  rw [show fleetCountOf l1 f = fleetCountOf l2 f from hc,
    show fleetAmountOf l1 f = fleetAmountOf l2 f from hs]

theorem fleet_summary_perm_eq {l1 l2 : List Row} (h : l1.Perm l2) :
    fleet_summary l1 = fleet_summary l2 := by
  unfold fleet_summary grandTotalRow
  rw [fleetGrouped_perm_eq h]

/-! ## Rows with a null date are invisible to the daily tables -/

theorem dailyKeys_cons_none {r : Row} (rest : List Row) (h : r.onlyDate = none) :
    dailyKeys (r :: rest) = dailyKeys rest := by
  unfold dailyKeys
  rw [List.filterMap_cons, h]
  rfl

theorem grouped_cons_none {r : Row} (rest : List Row) (h : r.onlyDate = none) :
    grouped (r :: rest) = grouped rest := by
  unfold grouped
  rw [dailyKeys_cons_none rest h]
  refine List.map_congr_left fun k _ => ?_
  have hc : keyCount (r :: rest) k = keyCount rest k := by
    simp [keyCount, List.countP_cons, h]
  have hs : keySum (r :: rest) k = keySum rest k := by
    simp [keySum, List.filter_cons, h]
  rw [hc, hs]

theorem subtotal_df_cons_none {r : Row} (rest : List Row) (h : r.onlyDate = none) :
    subtotal_df (r :: rest) = subtotal_df rest :=
  subtotal_df_congr (grouped_cons_none rest h)

/-! ## Claims -/

/-- C1: In the Daily Subtotals table, for every date present, the
synthetic `Subtotal` row's amount equals the sum of the per-(date, fleet)
`total_amount` values for that date (which in turn is the sum of the raw
amounts of the rows of that date), its count equals the sum of the
per-(date, fleet) counts for that date (the number of raw rows of that
date), and the `Subtotal` row is positioned immediately after that date's
fleet rows: the table splits as `pre ++ (fleet rows of d ++ [Subtotal row
of d]) ++ post` with no date-`d` row in `pre` or `post`. -/
theorem C1_daily_subtotal (rows : List Row) (d : ℕ)
    (hd : ∃ r ∈ rows, r.onlyDate = some d) :
    ∃ pre post,
      subtotal_df rows
        = pre ++ (((dateFleetRows rows d).map fun g =>
            SubRow.mk g.onlyDate g.fleet g.fleetCount g.totalAmount)
              ++ [subRowOf rows d]) ++ post ∧
      (∀ r ∈ pre, r.date ≠ d) ∧ (∀ r ∈ post, r.date ≠ d) ∧
      (subRowOf rows d).fleet = "Subtotal" ∧
      (subRowOf rows d).fleetCount = ((dateFleetRows rows d).map GroupedRow.fleetCount).sum ∧
      (subRowOf rows d).totalAmount = ((dateFleetRows rows d).map GroupedRow.totalAmount).sum ∧
      (subRowOf rows d).fleetCount = rows.countP (fun r => decide (r.onlyDate = some d)) ∧
      (subRowOf rows d).totalAmount
        = ((rows.filter fun r => decide (r.onlyDate = some d)).map Row.amount).sum := by
  obtain ⟨pre, post, he, h1, h2⟩ :=
    subtotal_df_decomposition rows d (mem_subDates.mpr hd)
  exact ⟨pre, post, by rw [he]; rfl, h1, h2, rfl, rfl, rfl,
    subtotal_count_eq rows d, subtotal_amount_eq rows d⟩

/-- Witness for C1 at the concrete input of the spec scenario and date
2024-01-01. -/
theorem C1_daily_subtotal_witness :
    ∃ pre post,
      subtotal_df [⟨some 20240101, "FleetA", 100⟩, ⟨some 20240101, "FleetB", 50⟩,
          ⟨some 20240102, "FleetA", 25⟩]
        = pre ++ (((dateFleetRows [⟨some 20240101, "FleetA", 100⟩,
            ⟨some 20240101, "FleetB", 50⟩, ⟨some 20240102, "FleetA", 25⟩] 20240101).map fun g =>
            SubRow.mk g.onlyDate g.fleet g.fleetCount g.totalAmount)
              ++ [subRowOf [⟨some 20240101, "FleetA", 100⟩, ⟨some 20240101, "FleetB", 50⟩,
                ⟨some 20240102, "FleetA", 25⟩] 20240101]) ++ post ∧
      (∀ r ∈ pre, r.date ≠ 20240101) ∧ (∀ r ∈ post, r.date ≠ 20240101) ∧
      (subRowOf [⟨some 20240101, "FleetA", 100⟩, ⟨some 20240101, "FleetB", 50⟩,
        ⟨some 20240102, "FleetA", 25⟩] 20240101).fleet = "Subtotal" ∧
      (subRowOf [⟨some 20240101, "FleetA", 100⟩, ⟨some 20240101, "FleetB", 50⟩,
        ⟨some 20240102, "FleetA", 25⟩] 20240101).fleetCount
        = ((dateFleetRows [⟨some 20240101, "FleetA", 100⟩, ⟨some 20240101, "FleetB", 50⟩,
            ⟨some 20240102, "FleetA", 25⟩] 20240101).map GroupedRow.fleetCount).sum ∧
      (subRowOf [⟨some 20240101, "FleetA", 100⟩, ⟨some 20240101, "FleetB", 50⟩,
        ⟨some 20240102, "FleetA", 25⟩] 20240101).totalAmount
        = ((dateFleetRows [⟨some 20240101, "FleetA", 100⟩, ⟨some 20240101, "FleetB", 50⟩,
            ⟨some 20240102, "FleetA", 25⟩] 20240101).map GroupedRow.totalAmount).sum ∧
      (subRowOf [⟨some 20240101, "FleetA", 100⟩, ⟨some 20240101, "FleetB", 50⟩,
        ⟨some 20240102, "FleetA", 25⟩] 20240101).fleetCount
        = ([⟨some 20240101, "FleetA", 100⟩, ⟨some 20240101, "FleetB", 50⟩,
            ⟨some 20240102, "FleetA", 25⟩] : List Row).countP
              (fun r => decide (r.onlyDate = some 20240101)) ∧
      (subRowOf [⟨some 20240101, "FleetA", 100⟩, ⟨some 20240101, "FleetB", 50⟩,
        ⟨some 20240102, "FleetA", 25⟩] 20240101).totalAmount
        = ((([⟨some 20240101, "FleetA", 100⟩, ⟨some 20240101, "FleetB", 50⟩,
            ⟨some 20240102, "FleetA", 25⟩] : List Row).filter
              fun r => decide (r.onlyDate = some 20240101)).map Row.amount).sum :=
  C1_daily_subtotal _ 20240101 ⟨⟨some 20240101, "FleetA", 100⟩, by decide⟩

/-- C2: In the Fleet Summary table, the synthetic `Grand Total` row's
amount equals the sum of the per-fleet `total_amount` values (which is the
total amount over the whole filtered table) and its count equals the sum
of the per-fleet counts (the number of rows of the table), and the
`Grand Total` row is the last row. -/
theorem C2_grand_total (rows : List Row) :
    fleet_summary rows = fleetGrouped rows ++ [grandTotalRow rows] ∧
    (fleet_summary rows).getLast? = some (grandTotalRow rows) ∧
    (grandTotalRow rows).fleet = "Grand Total" ∧
    (grandTotalRow rows).totalFleetCount
      = ((fleetGrouped rows).map FleetRow.totalFleetCount).sum ∧
    (grandTotalRow rows).totalAmount = ((fleetGrouped rows).map FleetRow.totalAmount).sum ∧
    (grandTotalRow rows).totalFleetCount = rows.length ∧
    (grandTotalRow rows).totalAmount = (rows.map Row.amount).sum :=
  ⟨rfl, by simp [fleet_summary], rfl, rfl, rfl,
    grand_count_eq_length rows, grand_amount_eq_total rows⟩

/-- C9: The Daily Subtotals table is ordered by date ascending (the list
of distinct dates is strictly increasing and the table is the
concatenation of the per-date blocks, so the date column is
nondecreasing), with each date's `Subtotal` row last within its date
block; the Fleet Summary table is sorted by fleet name ascending (in the
code-point order pandas uses) with the `Grand Total` row pinned as the
last row by construction — appended after the sorted per-fleet rows
regardless of how `"Grand Total"` compares with the fleet names. -/
theorem C9_ordering (rows : List Row) :
    List.Sorted (· < ·) (subDates rows) ∧
    List.Sorted (· ≤ ·) ((subtotal_df rows).map SubRow.date) ∧
    subtotal_df rows = ((subDates rows).map (dateBlock rows)).flatten ∧
    (∀ d ∈ subDates rows, (∀ r ∈ dateBlock rows d, r.date = d) ∧
      (dateBlock rows d).getLast? = some (subRowOf rows d) ∧
      (subRowOf rows d).fleet = "Subtotal") ∧
    List.Sorted strLe ((fleetGrouped rows).map FleetRow.fleet) ∧
    fleet_summary rows = fleetGrouped rows ++ [grandTotalRow rows] ∧
    (fleet_summary rows).getLast? = some (grandTotalRow rows) ∧
    (grandTotalRow rows).fleet = "Grand Total" := by
  refine ⟨sorted_subDates rows, sorted_subtotal_dates rows, rfl, ?_,
    sorted_fleetGrouped rows, rfl, by simp [fleet_summary], rfl⟩
  intro d hd
  exact ⟨dateBlock_dates rows d, by simp [dateBlock], rfl⟩

/-- Witness for C9 at a concrete input whose fleet name `"ZFleet"` sorts
after `"Grand Total"`: the block facts are instantiated at date
2024-01-01. -/
theorem C9_ordering_witness :
    List.Sorted (· < ·) (subDates [⟨some 20240102, "FleetB", 1⟩, ⟨some 20240101, "ZFleet", 2⟩]) ∧
    (∀ r ∈ dateBlock [⟨some 20240102, "FleetB", 1⟩, ⟨some 20240101, "ZFleet", 2⟩] 20240101,
      r.date = 20240101) ∧
    (fleet_summary [⟨some 20240102, "FleetB", 1⟩, ⟨some 20240101, "ZFleet", 2⟩]).getLast?
      = some (grandTotalRow [⟨some 20240102, "FleetB", 1⟩, ⟨some 20240101, "ZFleet", 2⟩]) :=
  ⟨(C9_ordering _).1,
    ((C9_ordering _).2.2.2.1 20240101 (by decide)).1,
    (C9_ordering [⟨some 20240102, "FleetB", 1⟩, ⟨some 20240101, "ZFleet", 2⟩]).2.2.2.2.2.2.1⟩

/-- C10: Permuting the normalized rows (in particular, permuting the
uploaded files or the rows they contribute) leaves both the Daily
Subtotals table and the Fleet Summary table unchanged: the outputs depend
only on the multiset of normalized rows. -/
theorem C10_permutation_invariance (l1 l2 : List Row) (h : l1.Perm l2) :
    subtotal_df l1 = subtotal_df l2 ∧ fleet_summary l1 = fleet_summary l2 :=
  ⟨subtotal_df_congr (grouped_perm_eq h), fleet_summary_perm_eq h⟩

/-- Witness for C10: swapping two concrete rows. -/
theorem C10_permutation_invariance_witness :
    subtotal_df [⟨some 20240101, "FleetA", 100⟩, ⟨some 20240102, "FleetB", 50⟩]
      = subtotal_df [⟨some 20240102, "FleetB", 50⟩, ⟨some 20240101, "FleetA", 100⟩] ∧
    fleet_summary [⟨some 20240101, "FleetA", 100⟩, ⟨some 20240102, "FleetB", 50⟩]
      = fleet_summary [⟨some 20240102, "FleetB", 50⟩, ⟨some 20240101, "FleetA", 100⟩] :=
  C10_permutation_invariance _ _ (List.Perm.swap _ _ _)

/-- C3: the spec scenario.  Input rows (2024-01-01, FleetA, 100),
(2024-01-01, FleetB, 50), (2024-01-02, FleetA, 25) produce exactly the
stated Daily Subtotals table and Fleet Summary table. -/
theorem C3_scenario :
    subtotal_df [⟨some 20240101, "FleetA", 100⟩, ⟨some 20240101, "FleetB", 50⟩,
        ⟨some 20240102, "FleetA", 25⟩]
      = [⟨20240101, "FleetA", 1, 100⟩, ⟨20240101, "FleetB", 1, 50⟩,
         ⟨20240101, "Subtotal", 2, 150⟩, ⟨20240102, "FleetA", 1, 25⟩,
         ⟨20240102, "Subtotal", 1, 25⟩] ∧
    fleet_summary [⟨some 20240101, "FleetA", 100⟩, ⟨some 20240101, "FleetB", 50⟩,
        ⟨some 20240102, "FleetA", 25⟩]
      = [⟨"FleetA", 2, 125⟩, ⟨"FleetB", 1, 50⟩, ⟨"Grand Total", 3, 175⟩] := by
  constructor
  · simp +decide [subtotal_df, subDates, grouped, dailyKeys, dateBlock, dateFleetRows,
      subRowOf, keySum, keyCount, keyLe, strLe, charListLe]
    norm_num
  · simp +decide [fleet_summary, fleetGrouped, fleetKeys, fleetCountOf, fleetAmountOf,
      grandTotalRow, strLe, charListLe]
    norm_num

/-- C4 counterexample: a row whose `Date` cell is unparsable is normalized
to the null sentinel date and kept in the normalized table (first
conjunct), yet the Daily Subtotals table computed from it is empty — the
row appears nowhere in that table, under a sentinel date or otherwise,
because the group-by drops null keys.  This falsifies the claim that such
a row still contributes to the Daily Subtotals. -/
theorem C4_counterexample :
    normalizeRow ⟨none, some 100, "FleetA"⟩ = ⟨none, "FleetA", 100⟩ ∧
    subtotal_df [⟨none, "FleetA", 100⟩] = [] :=
  ⟨rfl, rfl⟩

/-- C4 (amended): a row with an unparsable `Date` gets the null sentinel
date and is kept in the normalized table with its parsed amount; it is
silently dropped from the Daily Subtotals (the table is unchanged by the
row's presence), it is also removed by any applied date-range filter, but
it does contribute to the Fleet Summary when no date filter removes it:
its fleet's row counts it. -/
theorem C4_null_date_amended (raw : RawRow) (h : raw.dateField = none) (rest : List Row) :
    (normalizeRow raw).onlyDate = none ∧
    (normalizeRow raw).amount = raw.amountField.getD 0 ∧
    subtotal_df (normalizeRow raw :: rest) = subtotal_df rest ∧
    (∀ a b, applyDateFilter (some (a, b)) (normalizeRow raw :: rest)
      = applyDateFilter (some (a, b)) rest) ∧
    ∃ fr ∈ fleet_summary (normalizeRow raw :: rest),
      fr.fleet = raw.fleetField ∧
      fr.totalFleetCount = rest.countP (fun r => decide (r.fleet = raw.fleetField)) + 1 := by
  refine ⟨by simp [normalizeRow, h], rfl,
    subtotal_df_cons_none rest (by simp [normalizeRow, h]), ?_, ?_⟩
  · intro a b
    simp only [applyDateFilter, List.filter_cons]
    simp [normalizeRow, h]
  · refine ⟨⟨raw.fleetField, fleetCountOf (normalizeRow raw :: rest) raw.fleetField,
      fleetAmountOf (normalizeRow raw :: rest) raw.fleetField⟩, ?_, rfl, ?_⟩
    · apply List.mem_append_left
      exact List.mem_map.mpr ⟨raw.fleetField,
        mem_fleetKeys.mpr ⟨normalizeRow raw, List.mem_cons_self _ _, rfl⟩, rfl⟩
    · simp [fleetCountOf, List.countP_cons, normalizeRow]

/-- Witness for the amended C4 at a concrete unparsable-date row. -/
theorem C4_null_date_amended_witness :
    (normalizeRow ⟨none, some 100, "FleetA"⟩).onlyDate = none ∧
    (normalizeRow ⟨none, some 100, "FleetA"⟩).amount = (some (100 : ℚ)).getD 0 ∧
    subtotal_df (normalizeRow ⟨none, some 100, "FleetA"⟩ :: [⟨some 20240101, "FleetB", 50⟩])
      = subtotal_df [⟨some 20240101, "FleetB", 50⟩] ∧
    (∀ a b, applyDateFilter (some (a, b))
        (normalizeRow ⟨none, some 100, "FleetA"⟩ :: [⟨some 20240101, "FleetB", 50⟩])
      = applyDateFilter (some (a, b)) [⟨some 20240101, "FleetB", 50⟩]) ∧
    ∃ fr ∈ fleet_summary (normalizeRow ⟨none, some 100, "FleetA"⟩
        :: [⟨some 20240101, "FleetB", 50⟩]),
      fr.fleet = "FleetA" ∧
      fr.totalFleetCount
        = ([⟨some 20240101, "FleetB", 50⟩] : List Row).countP
            (fun r => decide (r.fleet = "FleetA")) + 1 :=
  C4_null_date_amended ⟨none, some 100, "FleetA"⟩ rfl [⟨some 20240101, "FleetB", 50⟩]

/-- C5 counterexample: a date-range filter that removes every row leaves
an empty filtered table, yet the Fleet Summary computed from it is not
empty — the `Grand Total` row is appended unconditionally.  This
falsifies the claim that both result tables are empty. -/
theorem C5_counterexample :
    applyDateFilter (some (20240201, 20240301)) [⟨some 20240101, "FleetA", 100⟩]
      = ([] : List Row) ∧
    fleet_summary (applyDateFilter (some (20240201, 20240301))
      [⟨some 20240101, "FleetA", 100⟩]) ≠ [] := by
  constructor
  · rfl
  · intro h
    exact List.cons_ne_nil _ _ h

/-- C5 (amended): when the filters empty the table no error is raised
(every stage is a total function); the Daily Subtotals table is empty,
but the Fleet Summary consists of exactly one row, a `Grand Total` row
with count 0 and amount 0. -/
theorem C5_empty_filter_amended (range : Option (ℕ × ℕ)) (sel : List String) (rows : List Row)
    (h : applyFleetFilter sel (applyDateFilter range rows) = []) :
    subtotal_df (applyFleetFilter sel (applyDateFilter range rows)) = [] ∧
    fleet_summary (applyFleetFilter sel (applyDateFilter range rows))
      = [⟨"Grand Total", 0, 0⟩] := by
  rw [h]
  exact ⟨rfl, rfl⟩

/-- Witness for the amended C5 with a concrete emptying date filter. -/
theorem C5_empty_filter_amended_witness :
    subtotal_df (applyFleetFilter [] (applyDateFilter (some (20240201, 20240301))
      [⟨some 20240101, "FleetA", 100⟩])) = [] ∧
    fleet_summary (applyFleetFilter [] (applyDateFilter (some (20240201, 20240301))
      [⟨some 20240101, "FleetA", 100⟩])) = [⟨"Grand Total", 0, 0⟩] :=
  C5_empty_filter_amended (some (20240201, 20240301)) [] [⟨some 20240101, "FleetA", 100⟩] rfl

/-- C6 counterexample: the bolding pass checks the cell at index 1, but in
the exported Fleet Summary sheet the fleet column is at index 0 (the cell
at index 1 is the numeric count).  At this concrete input the
`Grand Total` row is not rendered bold, contradicting the claim that in
every exported sheet the marker rows have all cells bold. -/
theorem C6_counterexample :
    ¬ ((∀ r ∈ subtotal_df [⟨some 20240101, "FleetA", 100⟩],
          (r.fleet = "Subtotal" ∨ r.fleet = "Grand Total")
            → rowIsBold (subRowCells r) = true) ∧
       (∀ r ∈ fleet_summary [⟨some 20240101, "FleetA", 100⟩],
          (r.fleet = "Subtotal" ∨ r.fleet = "Grand Total")
            → rowIsBold (fleetRowCells r) = true)) := by
  rintro ⟨-, h⟩
  have hm : grandTotalRow [⟨some 20240101, "FleetA", 100⟩]
      ∈ fleet_summary [⟨some 20240101, "FleetA", 100⟩] :=
    List.mem_append_right _ (List.mem_singleton.mpr rfl)
  have hb := h _ hm (Or.inr rfl)
  simp [rowIsBold, fleetRowCells] at hb

/-- C6 (amended): in the Daily Subtotals export (fleet column at index 1)
every row labelled `Subtotal` or `Grand Total` is rendered bold, but in
the Fleet Summary export the check reads index 1, which holds the numeric
count, so no row — in particular not the `Grand Total` row — is ever
rendered bold. -/
theorem C6_bold_amended (rows : List Row) :
    (∀ r ∈ subtotal_df rows,
      (r.fleet = "Subtotal" ∨ r.fleet = "Grand Total")
        → rowIsBold (subRowCells r) = true) ∧
    (∀ r ∈ fleet_summary rows, rowIsBold (fleetRowCells r) = false) := by
  constructor
  · intro r _ h
    rcases h with h | h <;> simp [rowIsBold, subRowCells, h]
  · intro r _
    rfl

/-- Witness for the amended C6: the concrete `Subtotal` row of a
one-row input is bold in the Daily Subtotals export, and the concrete
`Grand Total` row is not bold in the Fleet Summary export. -/
theorem C6_bold_amended_witness :
    rowIsBold (subRowCells ⟨20240101, "Subtotal", 1, 100⟩) = true ∧
    rowIsBold (fleetRowCells (grandTotalRow [⟨some 20240101, "FleetA", 100⟩])) = false := by
  constructor
  · refine (C6_bold_amended [⟨some 20240101, "FleetA", 100⟩]).1 _ ?_ (Or.inl rfl)
    have he : subtotal_df [⟨some 20240101, "FleetA", 100⟩]
        = [⟨20240101, "FleetA", 1, 100⟩, ⟨20240101, "Subtotal", 1, 100⟩] := by
      simp +decide [subtotal_df, subDates, grouped, dailyKeys, dateBlock, dateFleetRows,
        subRowOf, keySum, keyCount, keyLe, strLe, charListLe]
    rw [he]
    simp
  · exact (C6_bold_amended [⟨some 20240101, "FleetA", 100⟩]).2 _
      (List.mem_append_right _ (List.mem_singleton.mpr rfl))

/-- C7: a row whose `Amount` is unparsable or missing is coerced to the
numeric value 0 and kept: it is normalized (not dropped, no error —
normalization is total), its `(date, fleet)` group exists and counts it,
and its per-fleet count counts it. -/
theorem C7_amount_coerced (raw : RawRow) (h : raw.amountField = none) (rest : List Row) :
    normalizeRow raw = ⟨raw.dateField, raw.fleetField, 0⟩ ∧
    (∀ d, raw.dateField = some d →
      (d, raw.fleetField) ∈ dailyKeys (normalizeRow raw :: rest) ∧
      keyCount (normalizeRow raw :: rest) (d, raw.fleetField)
        = keyCount rest (d, raw.fleetField) + 1) ∧
    fleetCountOf (normalizeRow raw :: rest) raw.fleetField
      = fleetCountOf rest raw.fleetField + 1 := by
  refine ⟨by simp [normalizeRow, h], ?_,
    by simp [fleetCountOf, List.countP_cons, normalizeRow]⟩
  intro d hd
  constructor
  · exact mem_dailyKeys.mpr ⟨normalizeRow raw, List.mem_cons_self _ _,
      by simp [normalizeRow, hd], rfl⟩
  · simp [keyCount, List.countP_cons, normalizeRow, hd]

/-- Witness for C7 at a concrete row with an unparsable amount. -/
theorem C7_amount_coerced_witness :
    normalizeRow ⟨some 20240101, none, "FleetA"⟩ = ⟨some 20240101, "FleetA", 0⟩ ∧
    (∀ d, (some 20240101 : Option ℕ) = some d →
      (d, "FleetA") ∈ dailyKeys (normalizeRow ⟨some 20240101, none, "FleetA"⟩ :: []) ∧
      keyCount (normalizeRow ⟨some 20240101, none, "FleetA"⟩ :: []) (d, "FleetA")
        = keyCount [] (d, "FleetA") + 1) ∧
    fleetCountOf (normalizeRow ⟨some 20240101, none, "FleetA"⟩ :: []) "FleetA"
      = fleetCountOf [] "FleetA" + 1 :=
  C7_amount_coerced ⟨some 20240101, none, "FleetA"⟩ rfl []

/-- C8: a readable uploaded file missing required columns is skipped with
a per-file error naming exactly the required columns absent from it, it
contributes zero rows to the combined table, and the batch is not
aborted: removing the bad file from the batch leaves the combined rows
unchanged, so every other valid file still contributes its rows. -/
theorem C8_missing_columns (pre post : List UploadedFile) (f : UploadedFile)
    (hext : ".csv".data.isSuffixOf (lowerName f) = true
      ∨ (".csv".data.isSuffixOf (lowerName f) = false
          ∧ ".xlsx".data.isSuffixOf (lowerName f) = true ∧ f.sheetReadable = true))
    (hmiss : missingOf f ≠ []) :
    processFile f = .missingColumns (missingOf f) ∧
    (∀ c, c ∈ missingOf f ↔ (c ∈ REQUIRED_COLS ∧ c ∉ f.columns)) ∧
    combinedRows (pre ++ f :: post) = combinedRows (pre ++ post) := by
  have hpf : processFile f = .missingColumns (missingOf f) := by
    unfold processFile validateAndNormalize
    rcases hext with h | ⟨h1, h2, h3⟩
    · simp [h, hmiss]
    · simp [h1, h2, h3, hmiss]
  refine ⟨hpf, ?_, ?_⟩
  · intro c
    unfold missingOf
    rw [List.mem_filter]
    simp
  · unfold combinedRows process_uploaded_files
    rw [List.filterMap_append, List.filterMap_append, List.filterMap_cons, hpf]

/-- Witness for C8: a batch of three files whose middle file lacks the
`Fleet` column; the other two files still contribute their rows. -/
theorem C8_missing_columns_witness :
    processFile ⟨"b.csv", true, ["Date", "Amount"], [⟨some 20240101, some 50, "X"⟩]⟩
      = .missingColumns (missingOf ⟨"b.csv", true, ["Date", "Amount"],
          [⟨some 20240101, some 50, "X"⟩]⟩) ∧
    (∀ c, c ∈ missingOf ⟨"b.csv", true, ["Date", "Amount"], [⟨some 20240101, some 50, "X"⟩]⟩
      ↔ (c ∈ REQUIRED_COLS ∧ c ∉ ["Date", "Amount"])) ∧
    combinedRows ([⟨"a.csv", true, ["Date", "Fleet", "Amount"],
        [⟨some 20240101, some 100, "FleetA"⟩]⟩]
      ++ ⟨"b.csv", true, ["Date", "Amount"], [⟨some 20240101, some 50, "X"⟩]⟩
        :: [⟨"c.xlsx", true, ["Date", "Fleet", "Amount"], [⟨some 20240102, some 25, "FleetB"⟩]⟩])
      = combinedRows ([⟨"a.csv", true, ["Date", "Fleet", "Amount"],
          [⟨some 20240101, some 100, "FleetA"⟩]⟩]
        ++ [⟨"c.xlsx", true, ["Date", "Fleet", "Amount"], [⟨some 20240102, some 25, "FleetB"⟩]⟩]) :=
  C8_missing_columns _ _ _ (Or.inl (by decide)) (by decide)

end FleetDashboard
